import Mathlib

/-!
Shallow embedding of `rootpy/tree/filtering.py`: the cut-flow filtering
pipeline (`Filter`, `EventFilter`, `ObjectFilter`, `FilterList`,
`EventFilterList`, `ObjectFilterList`) and the statistics-merge step.

Python exceptions are modelled with `Except PyErr`; mutation of a filter
object is modelled by returning the updated record next to the call's
result value.  A call that raises still returns the (partially) mutated
record, mirroring the fact that in Python `self.total += 1` has already
happened when a later line raises.
-/

/-- Exceptions raised by the code under study. -/
inductive PyErr where
  | valueError
  | keyError
  | typeError
  | notImplementedError
deriving DecidableEq, Repr

/-- The counting state every `Filter` instance carries
(`self.name`, `self.total`, `self.passing`, `self.details`).
The Python `details` dict is modelled as an association list. -/
structure FilterState where
  name : String
  total : Nat
  passing : Nat
  details : List (String × Nat)
deriving DecidableEq, Repr

/-- State of a freshly constructed `Filter()` (zero counters, empty details),
as set by `Filter.__init__`. -/
def FilterState.init (name : String) : FilterState :=
  { name := name, total := 0, passing := 0, details := [] }

/-- `self.total += n` on the counting state. -/
def FilterState.incTotal (s : FilterState) (n : Nat) : FilterState :=
  { s with total := s.total + n }

/-- `self.passing += n` on the counting state. -/
def FilterState.incPassing (s : FilterState) (n : Nat) : FilterState :=
  { s with passing := s.passing + n }

/-- The `details` dict built inside `Filter.add`:
`dict([(detail, left.details[detail] + right.details[detail]) for detail in left.details.keys()])`.
Iterates over the LEFT dict's keys only; a key of `left` absent from
`right` raises `KeyError`, while keys only in `right` are silently dropped. -/
def detailsSum (left right : List (String × Nat)) :
    Except PyErr (List (String × Nat)) :=
  left.mapM (fun kv =>
    match right.lookup kv.1 with
    | none => .error .keyError
    | some w => .ok (kv.1, kv.2 + w))

/-- The local `newfilter` constructed in `Filter.add`: equal name, summed
`total` and `passing`, `details` summed over the left key-set. -/
def Filter.newfilterOf (left right : FilterState) :
    Except PyErr FilterState := do
  let d ← detailsSum left.details right.details
  pure { name := left.name,
         total := left.total + right.total,
         passing := left.passing + right.passing,
         details := d }

/-- `Filter.add(left, right)`: raises `ValueError` on a name mismatch,
builds `newfilter` (which may raise `KeyError` while summing details) and
then falls off the end of the function body — there is no `return`
statement, so on success Python returns `None` (here: `Option.none`). -/
def Filter.add (left right : FilterState) :
    Except PyErr (Option FilterState) :=
  if left.name ≠ right.name then .error .valueError
  else do
    let _newfilter ← Filter.newfilterOf left right
    pure none

/-- Appending the value produced by `f1+f2` to the fresh `FilterList` inside
`FilterList.merge`.  `FilterList.append` runs
`isinstance(filter, Filter)` and raises `TypeError` on `None`. -/
def FilterList.appendAdded (acc : List FilterState)
    (x : Option FilterState) : Except PyErr (List FilterState) :=
  match x with
  | none => .error .typeError
  | some s => .ok (acc ++ [s])

/-- Loop body of `FilterList.merge`: `for f1,f2 in zip(list1,list2):
filterlist.append(f1+f2)`. -/
def FilterList.mergeAux :
    List (FilterState × FilterState) → List FilterState →
      Except PyErr (List FilterState)
  | [], acc => .ok acc
  | p :: rest, acc => do
      let s ← Filter.add p.1 p.2
      let acc' ← FilterList.appendAdded acc s
      FilterList.mergeAux rest acc'

/-- `FilterList.merge(list1, list2)`: zips the two lists (silently
truncating to the shorter one — there is no length check) and appends the
pairwise sums. -/
def FilterList.merge (list1 list2 : List FilterState) :
    Except PyErr (List FilterState) :=
  FilterList.mergeAux (list1.zip list2) []

/-- `combine` as the spec words it (for comparison with `Filter.add`):
returns the combined filter, failing when the two key-sets differ in
either direction. -/
def Filter.combineSpec (left right : FilterState) :
    Except PyErr FilterState :=
  if left.name ≠ right.name then .error .valueError
  else if (left.details.map Prod.fst).Perm (right.details.map Prod.fst) then
    Filter.newfilterOf left right
  else .error .keyError

/-- An `EventFilter` instance: the inherited counting state, the
`passthrough` flag, and the (subclass-supplied) `passes` predicate, which
may raise — the un-overridden base method always raises
`NotImplementedError`. -/
structure EventFilter (Event : Type) where
  state : FilterState
  passthrough : Bool
  passes : Event → Except PyErr Bool

/-- `EventFilter.__call__(event)`: `self.total += 1`; then
`if self.passthrough or self.passes(event)` (short-circuit: `passes` is
not consulted when `passthrough` is set) the hooks fire, `passing`
increments and `True` is returned, else `False`.  The mutated object is
returned next to the outcome; an exception from `passes` leaves the
already-incremented `total` in place. -/
def EventFilter.call {Event : Type} (f : EventFilter Event) (e : Event) :
    EventFilter Event × Except PyErr Bool :=
  if f.passthrough then
    ({ f with state := (f.state.incTotal 1).incPassing 1 }, .ok true)
  else
    match f.passes e with
    | .error err => ({ f with state := f.state.incTotal 1 }, .error err)
    | .ok true =>
        ({ f with state := (f.state.incTotal 1).incPassing 1 }, .ok true)
    | .ok false => ({ f with state := f.state.incTotal 1 }, .ok false)

/-- Feeding a sequence of events one at a time into a single
`EventFilter` (each event submitted exactly once). -/
def EventFilter.runAll {Event : Type} (f : EventFilter Event)
    (events : List Event) : EventFilter Event :=
  events.foldl (fun g e => (g.call e).1) f

/-- An `ObjectFilter` instance: counting state, the `passthrough` flag, the
`count_events` mode, and the (subclass-supplied) `filtered` narrowing
method. -/
structure ObjectFilter (Event Obj : Type) where
  state : FilterState
  passthrough : Bool
  count_events : Bool
  filtered : Event → List Obj → Except PyErr (List Obj)

/-- `ObjectFilter.__call__(event, collection)`: `total` grows by 1 in
`count_events` mode, else by `len(collection)`; unless `passthrough` is
set the collection is replaced by `self.filtered(event, collection)`;
if the resulting collection is non-empty, `passing` grows by 1 in
`count_events` mode, else by its length; the collection is returned. -/
def ObjectFilter.call {Event Obj : Type} (g : ObjectFilter Event Obj)
    (e : Event) (collection : List Obj) :
    ObjectFilter Event Obj × Except PyErr (List Obj) :=
  let st := g.state.incTotal (if g.count_events then 1 else collection.length)
  match (if g.passthrough then Except.ok collection
         else g.filtered e collection) with
  | .error err => ({ g with state := st }, .error err)
  | .ok coll =>
      if 0 < coll.length then
        ({ g with state :=
            st.incPassing (if g.count_events then 1 else coll.length) },
         .ok coll)
      else ({ g with state := st }, .ok coll)

/-- Feeding a sequence of `(event, collection)` calls into a single
`ObjectFilter`. -/
def ObjectFilter.runAll {Event Obj : Type} (g : ObjectFilter Event Obj)
    (calls : List (Event × List Obj)) : ObjectFilter Event Obj :=
  calls.foldl (fun g c => (g.call c.1 c.2).1) g

deriving instance DecidableEq for Except

/-- The pass/fail outcome a single `EventFilter.__call__` produces, as a
function of the object's immutable behaviour fields only
(`self.passthrough or self.passes(event)` with short-circuit). -/
def EventFilter.outcome {Event : Type} (f : EventFilter Event) (e : Event) :
    Except PyErr Bool :=
  if f.passthrough then .ok true else f.passes e

/-- `EventFilterList.__call__(event)`: run the stages in list order; the
first stage returning `False` (or raising) stops the iteration, leaving
the remaining stages untouched; if every stage returns `True` the result
is `True`. -/
def EventFilterList.call {Event : Type} :
    List (EventFilter Event) → Event →
      List (EventFilter Event) × Except PyErr Bool
  | [], _ => ([], .ok true)
  | f :: rest, e =>
      match (f.call e).2 with
      | .ok true =>
          ((f.call e).1 :: (EventFilterList.call rest e).1,
           (EventFilterList.call rest e).2)
      | .ok false => ((f.call e).1 :: rest, .ok false)
      | .error err => ((f.call e).1 :: rest, .error err)

/-- Submitting a sequence of events, each exactly once, to an
`EventFilterList`. -/
def EventFilterList.runEvents {Event : Type} :
    List (EventFilter Event) → List Event → List (EventFilter Event)
  | fs, [] => fs
  | fs, e :: es => EventFilterList.runEvents (EventFilterList.call fs e).1 es

/-- The cut-flow chaining property between adjacent stages: each stage's
`total` equals the previous stage's `passing`. -/
def chainOk {Event : Type} : List (EventFilter Event) → Prop
  | [] => True
  | [_] => True
  | f :: g :: rest => g.state.total = f.state.passing ∧ chainOk (g :: rest)

/-- A Python value as seen by the list-membership `isinstance` checks:
`None`, a plain `Filter` instance, an `EventFilter` instance, or an
`ObjectFilter` instance. -/
inductive PyObj (Event Obj : Type) where
  | pyNone
  | baseFilter (s : FilterState)
  | eventFilter (f : EventFilter Event)
  | objectFilter (f : ObjectFilter Event Obj)

/-- `isinstance(x, Filter)`: every filter subclass instance qualifies,
`None` does not. -/
def PyObj.isFilter {Event Obj : Type} : PyObj Event Obj → Bool
  | .pyNone => false
  | _ => true

/-- `isinstance(x, EventFilter)`. -/
def PyObj.isEventFilter {Event Obj : Type} : PyObj Event Obj → Bool
  | .eventFilter _ => true
  | _ => false

/-- `isinstance(x, ObjectFilter)`. -/
def PyObj.isObjectFilter {Event Obj : Type} : PyObj Event Obj → Bool
  | .objectFilter _ => true
  | _ => false

/-- `FilterList.append(filter)`: raises `TypeError` unless the argument is
a `Filter` instance, leaving the list unmodified; otherwise appends. -/
def FilterList.appendPy {Event Obj : Type} (l : List (PyObj Event Obj))
    (x : PyObj Event Obj) : List (PyObj Event Obj) × Option PyErr :=
  if x.isFilter then (l ++ [x], none) else (l, some .typeError)

/-- `EventFilterList.append(filter)`: raises `TypeError` unless the
argument is an `EventFilter` instance, then defers to
`FilterList.append`. -/
def EventFilterList.append {Event Obj : Type} (l : List (PyObj Event Obj))
    (x : PyObj Event Obj) : List (PyObj Event Obj) × Option PyErr :=
  if x.isEventFilter then FilterList.appendPy l x else (l, some .typeError)

/-- `ObjectFilterList.append(filter)`: raises `TypeError` unless the
argument is an `ObjectFilter` instance, then defers to
`FilterList.append`. -/
def ObjectFilterList.append {Event Obj : Type} (l : List (PyObj Event Obj))
    (x : PyObj Event Obj) : List (PyObj Event Obj) × Option PyErr :=
  if x.isObjectFilter then FilterList.appendPy l x else (l, some .typeError)

/-- `EventFilterList.__setitem__` is declared as `def __setitem__(self,
filter)` — two parameters — while the interpreter invokes positional
assignment `lst[i] = x` with three arguments (`self, index, value`), so
every positional insertion raises `TypeError` before the method body
runs and the list stays unmodified. -/
def EventFilterList.setitem {Event Obj : Type} (l : List (PyObj Event Obj))
    (_index : Nat) (_x : PyObj Event Obj) :
    List (PyObj Event Obj) × Option PyErr :=
  (l, some .typeError)

/-- `ObjectFilterList.__setitem__` has the same two-parameter declaration
as `EventFilterList.__setitem__`, so positional insertion raises
`TypeError` with the list unmodified. -/
def ObjectFilterList.setitem {Event Obj : Type} (l : List (PyObj Event Obj))
    (_index : Nat) (_x : PyObj Event Obj) :
    List (PyObj Event Obj) × Option PyErr :=
  (l, some .typeError)

/-- Concrete stage for witnesses: accepts every event. -/
def wAccept : EventFilter Nat :=
  { state := FilterState.init "accept", passthrough := false,
    passes := fun _ => .ok true }

/-- Concrete stage for witnesses: accepts even events. -/
def wEven : EventFilter Nat :=
  { state := FilterState.init "even", passthrough := false,
    passes := fun e => .ok (decide (e % 2 = 0)) }

/-- Concrete stage for witnesses: rejects every event. -/
def wReject : EventFilter Nat :=
  { state := FilterState.init "reject", passthrough := false,
    passes := fun _ => .ok false }

/-- Concrete stage for witnesses: `passthrough` set, with the un-overridden
base `passes` (which would raise if consulted). -/
def wPassthrough : EventFilter Nat :=
  { state := FilterState.init "pass", passthrough := true,
    passes := fun _ => .error .notImplementedError }

/-- Concrete stage for witnesses: the un-overridden base `passes`, raising
`NotImplementedError` on every evaluation. -/
def wRaise : EventFilter Nat :=
  { state := FilterState.init "raise", passthrough := false,
    passes := fun _ => .error .notImplementedError }

/-- Concrete object stage for witnesses: keeps objects smaller than 5,
default `count_events=False` mode. -/
def wObjSmall : ObjectFilter Nat Nat :=
  { state := FilterState.init "small", passthrough := false,
    count_events := false,
    filtered := fun _ c => .ok (c.filter (fun o => decide (o < 5))) }

/-- Concrete object stage for witnesses: keeps objects smaller than 5 in
`count_events=True` mode. -/
def wObjSmallCE : ObjectFilter Nat Nat :=
  { state := FilterState.init "smallce", passthrough := true,
    count_events := true,
    filtered := fun _ c => .ok (c.filter (fun o => decide (o < 5))) }

/-- Concrete object stage for witnesses: the un-overridden base `filtered`,
raising `NotImplementedError` on every evaluation. -/
def wObjRaise : ObjectFilter Nat Nat :=
  { state := FilterState.init "objraise", passthrough := false,
    count_events := false,
    filtered := fun _ _ => .error .notImplementedError }

/-!  Helper lemmas about single-stage evaluation. -/

theorem FilterState.incTotal_total (s : FilterState) (n : Nat) :
    (s.incTotal n).total = s.total + n := rfl

theorem FilterState.incTotal_passing (s : FilterState) (n : Nat) :
    (s.incTotal n).passing = s.passing := rfl

theorem FilterState.incTotal_details (s : FilterState) (n : Nat) :
    (s.incTotal n).details = s.details := rfl

theorem FilterState.incPassing_total (s : FilterState) (n : Nat) :
    (s.incPassing n).total = s.total := rfl

theorem FilterState.incPassing_passing (s : FilterState) (n : Nat) :
    (s.incPassing n).passing = s.passing + n := rfl

theorem FilterState.incPassing_details (s : FilterState) (n : Nat) :
    (s.incPassing n).details = s.details := rfl

attribute [simp] FilterState.incTotal_total FilterState.incTotal_passing
  FilterState.incTotal_details FilterState.incPassing_total
  FilterState.incPassing_passing FilterState.incPassing_details

/-- One `EventFilter.__call__` in closed form: the state update is decided
by the outcome, and the outcome is `outcome`. -/
theorem EventFilter.call_eq {Event : Type} (f : EventFilter Event)
    (e : Event) :
    f.call e =
      ({ f with state :=
          if f.outcome e = .ok true then (f.state.incTotal 1).incPassing 1
          else f.state.incTotal 1 },
       f.outcome e) := by
  unfold EventFilter.call EventFilter.outcome
  by_cases hp : f.passthrough
  · simp [hp]
  · simp [hp]
    rcases hpe : f.passes e with err | b
    · simp
    · cases b <;> simp

/-- C1: `Filter.combine` (the code's `Filter.add`) is claimed to return the
combined filter, and to fail with `DetailKeyMismatch` whenever the two
details key-sets differ in either direction.  The code violates both
parts: `Filter.add` has no `return` statement, so two same-named filters
with matching details combine to Python `None` (not the summed filter),
and a key present only in the right operand's details raises nothing —
the combination still succeeds with `None`. -/
theorem filter_add_returns_none :
    Filter.add { name := "f", total := 1, passing := 1, details := [] }
        { name := "f", total := 2, passing := 1, details := [] } = .ok none
    ∧ Filter.add { name := "g", total := 0, passing := 0, details := [] }
        { name := "g", total := 0, passing := 0, details := [("k", 1)] }
        = .ok none
    ∧ Filter.newfilterOf { name := "f", total := 1, passing := 1, details := [] }
        { name := "f", total := 2, passing := 1, details := [] }
        = .ok { name := "f", total := 3, passing := 2, details := [] } := by
  refine ⟨rfl, rfl, rfl⟩

/-- C2: `FilterList.merge` is claimed to fail with `LengthMismatch` when the
two lists have different lengths, and otherwise to return the list of
pairwise-combined stages.  The code does neither: merging an empty list
with a one-stage list silently returns an empty list (zip truncates, no
length check exists), and merging two equal-length one-stage lists raises
`TypeError`, because `f1+f2` returns `None` (missing `return` in
`Filter.add`) and `FilterList.append` rejects `None`. -/
theorem merge_no_length_check_and_typeerror :
    FilterList.merge [] [FilterState.init "f"] = .ok []
    ∧ FilterList.merge [FilterState.init "f"] [FilterState.init "f"]
        = .error .typeError := by
  refine ⟨rfl, rfl⟩

/-- C3: merge is claimed to be commutative and associative in the resulting
per-stage counter values for same-shaped lists.  On the code the claimed
equalities never arise for nonempty lists: `FilterList.merge` raises
`TypeError` on any nonempty zip (its `append(f1+f2)` receives `None`), so
neither `merge(A,B)` nor `merge(merge(A,B),C)` produces any stages.  Shown
here at A = B = C = one zero stage named "s". -/
theorem merge_not_combinable :
    FilterList.merge [FilterState.init "s"] [FilterState.init "s"]
        = .error .typeError
    ∧ (FilterList.merge [FilterState.init "s"] [FilterState.init "s"]).bind
        (fun ab => FilterList.merge ab [FilterState.init "s"])
        = .error .typeError := by
  refine ⟨rfl, rfl⟩

/-- The result component of `EventFilter.__call__` is exactly `outcome`. -/
theorem EventFilter.call_snd {Event : Type} (f : EventFilter Event)
    (e : Event) : (f.call e).2 = f.outcome e := by
  rw [EventFilter.call_eq]

/-- Every `EventFilter.__call__` increments `total` by exactly 1. -/
theorem EventFilter.call_total {Event : Type} (f : EventFilter Event)
    (e : Event) : (f.call e).1.state.total = f.state.total + 1 := by
  rw [EventFilter.call_eq]
  by_cases h : f.outcome e = .ok true <;> simp [h]

/-- A passing `EventFilter.__call__` increments `passing` by exactly 1. -/
theorem EventFilter.call_passing_true {Event : Type} (f : EventFilter Event)
    (e : Event) (h : (f.call e).2 = .ok true) :
    (f.call e).1.state.passing = f.state.passing + 1 := by
  rw [EventFilter.call_snd] at h
  rw [EventFilter.call_eq]
  simp [h]

/-- A non-passing `EventFilter.__call__` leaves `passing` unchanged. -/
theorem EventFilter.call_passing_ne {Event : Type} (f : EventFilter Event)
    (e : Event) (h : (f.call e).2 ≠ .ok true) :
    (f.call e).1.state.passing = f.state.passing := by
  rw [EventFilter.call_snd] at h
  rw [EventFilter.call_eq]
  simp [h]

/-- `EventFilter.__call__` never touches `details`. -/
theorem EventFilter.call_details {Event : Type} (f : EventFilter Event)
    (e : Event) : (f.call e).1.state.details = f.state.details := by
  rw [EventFilter.call_eq]
  by_cases h : f.outcome e = .ok true <;> simp [h]

/-- C8: with `passthrough=True`, an `EventFilter` evaluation returns `True`
for every event, still increments `total` by 1 (and `passing` by 1), and
never consults the `passes` predicate: the call's observable effect is
the same for every possible `passes` implementation. -/
theorem eventFilter_passthrough_skips_predicate {Event : Type}
    (f : EventFilter Event) (e : Event) (h : f.passthrough = true) :
    (f.call e).2 = .ok true
    ∧ (f.call e).1.state.total = f.state.total + 1
    ∧ ∀ p : Event → Except PyErr Bool,
        (({ f with passes := p } : EventFilter Event).call e).1.state
            = (f.call e).1.state
        ∧ (({ f with passes := p } : EventFilter Event).call e).2
            = (f.call e).2 := by
  unfold EventFilter.call
  simp [h]

/-- C8 witness: the passthrough stage `wPassthrough` (whose `passes` would
raise if consulted) passes the event `0`. -/
theorem eventFilter_passthrough_skips_predicate_witness :
    wPassthrough.passthrough = true
    ∧ ((wPassthrough.call 0).2 = .ok true
      ∧ (wPassthrough.call 0).1.state.total = wPassthrough.state.total + 1
      ∧ ∀ p : Nat → Except PyErr Bool,
          (({ wPassthrough with passes := p } : EventFilter Nat).call 0).1.state
              = (wPassthrough.call 0).1.state
          ∧ (({ wPassthrough with passes := p } : EventFilter Nat).call 0).2
              = (wPassthrough.call 0).2) :=
  ⟨rfl, eventFilter_passthrough_skips_predicate wPassthrough 0 rfl⟩

/-- C10: evaluation is not atomic on error.  When `passes` raises, the
`EventFilter` call still increments `total` by 1 before the exception
propagates, with `passing` and `details` unchanged; when `filtered`
raises in `count_events=False` mode, the `ObjectFilter` call still
increments `total` by the input collection's length, with `passing` and
`details` unchanged. -/
theorem evaluation_not_atomic_on_error {E₁ E₂ O : Type}
    (f : EventFilter E₁) (e₁ : E₁) (err₁ : PyErr)
    (g : ObjectFilter E₂ O) (e₂ : E₂) (coll : List O) (err₂ : PyErr)
    (hp : f.passthrough = false) (hpe : f.passes e₁ = .error err₁)
    (gp : g.passthrough = false) (gce : g.count_events = false)
    (gf : g.filtered e₂ coll = .error err₂) :
    (f.call e₁).2 = .error err₁
    ∧ (f.call e₁).1.state.total = f.state.total + 1
    ∧ (f.call e₁).1.state.passing = f.state.passing
    ∧ (f.call e₁).1.state.details = f.state.details
    ∧ (g.call e₂ coll).2 = .error err₂
    ∧ (g.call e₂ coll).1.state.total = g.state.total + coll.length
    ∧ (g.call e₂ coll).1.state.passing = g.state.passing
    ∧ (g.call e₂ coll).1.state.details = g.state.details := by
  have hf : f.call e₁ = ({ f with state := f.state.incTotal 1 }, .error err₁) := by
    unfold EventFilter.call
    simp [hp, hpe]
  have hg : g.call e₂ coll
      = ({ g with state := g.state.incTotal coll.length }, .error err₂) := by
    unfold ObjectFilter.call
    simp [gp, gce, gf]
  refine ⟨?_, ?_, ?_, ?_, ?_, ?_, ?_, ?_⟩ <;> simp [hf, hg]

/-- C10 witness: the un-overridden stages `wRaise` and `wObjRaise` raise
`NotImplementedError` at event `0` (collection `[1, 2]`), yet their
`total` counters advance. -/
theorem evaluation_not_atomic_on_error_witness :
    (wRaise.call 0).2 = .error .notImplementedError
    ∧ (wRaise.call 0).1.state.total = wRaise.state.total + 1
    ∧ (wRaise.call 0).1.state.passing = wRaise.state.passing
    ∧ (wRaise.call 0).1.state.details = wRaise.state.details
    ∧ (wObjRaise.call 0 [1, 2]).2 = .error .notImplementedError
    ∧ (wObjRaise.call 0 [1, 2]).1.state.total
        = wObjRaise.state.total + ([1, 2] : List Nat).length
    ∧ (wObjRaise.call 0 [1, 2]).1.state.passing = wObjRaise.state.passing
    ∧ (wObjRaise.call 0 [1, 2]).1.state.details = wObjRaise.state.details :=
  evaluation_not_atomic_on_error wRaise 0 .notImplementedError
    wObjRaise 0 [1, 2] .notImplementedError rfl rfl rfl rfl rfl

/-- `ObjectFilter.__call__` never changes the behaviour fields
(`passthrough`, `count_events`, `filtered`) or `details`. -/
theorem ObjectFilter.call_behavior {Event Obj : Type}
    (g : ObjectFilter Event Obj) (e : Event) (c : List Obj) :
    (g.call e c).1.passthrough = g.passthrough
    ∧ (g.call e c).1.count_events = g.count_events
    ∧ (g.call e c).1.filtered = g.filtered
    ∧ (g.call e c).1.state.details = g.state.details := by
  unfold ObjectFilter.call
  rcases hres : (if g.passthrough then Except.ok c else g.filtered e c)
      with err | coll
  · simp [hres]
  · by_cases hl : 0 < coll.length <;> simp [hres, hl]

/-- One `ObjectFilter.__call__` preserves `passing ≤ total`, provided the
narrowing method never enlarges the collection. -/
theorem ObjectFilter.call_preserves_le {Event Obj : Type}
    (g : ObjectFilter Event Obj) (e : Event) (c : List Obj)
    (hfil : ∀ (ev : Event) (cl res : List Obj),
        g.filtered ev cl = .ok res → res.length ≤ cl.length)
    (h : g.state.passing ≤ g.state.total) :
    (g.call e c).1.state.passing ≤ (g.call e c).1.state.total := by
  unfold ObjectFilter.call
  rcases hres : (if g.passthrough then Except.ok c else g.filtered e c)
      with err | coll
  · simp [hres]
    omega
  · have hlen : coll.length ≤ c.length := by
      by_cases hp : g.passthrough
      · simp [hp] at hres
        simp [hres]
      · simp [hp] at hres
        exact hfil e c coll hres
    by_cases hl : 0 < coll.length <;>
      by_cases hce : g.count_events <;> simp [hres, hl, hce] <;> omega

/-- One `EventFilter.__call__` preserves `passing ≤ total`. -/
theorem EventFilter.call_passing_le {Event : Type} (f : EventFilter Event)
    (e : Event) (h : f.state.passing ≤ f.state.total) :
    (f.call e).1.state.passing ≤ (f.call e).1.state.total := by
  rw [EventFilter.call_eq]
  by_cases hout : f.outcome e = .ok true <;> simp [hout] <;> omega

/-- `passing ≤ total` is preserved along any event sequence fed to a
single `EventFilter`. -/
theorem EventFilter.runAll_passing_le {Event : Type} (events : List Event) :
    ∀ f : EventFilter Event, f.state.passing ≤ f.state.total →
      (f.runAll events).state.passing ≤ (f.runAll events).state.total := by
  induction events with
  | nil => intro f h; exact h
  | cons e es ih =>
      intro f h
      exact ih (f.call e).1 (EventFilter.call_passing_le f e h)

/-- `passing ≤ total` is preserved along any call sequence fed to a single
`ObjectFilter` whose narrowing method never enlarges the collection. -/
theorem ObjectFilter.runAll_preserves_le {Event Obj : Type}
    (calls : List (Event × List Obj)) :
    ∀ g : ObjectFilter Event Obj,
      (∀ (ev : Event) (cl res : List Obj),
          g.filtered ev cl = .ok res → res.length ≤ cl.length) →
      g.state.passing ≤ g.state.total →
      (g.runAll calls).state.passing ≤ (g.runAll calls).state.total := by
  induction calls with
  | nil => intro g _ h; exact h
  | cons c cs ih =>
      intro g hfil h
      refine ih (g.call c.1 c.2).1 ?_ (ObjectFilter.call_preserves_le g c.1 c.2 hfil h)
      intro ev cl res hres
      rw [(ObjectFilter.call_behavior g c.1 c.2).2.2.1] at hres
      exact hfil ev cl res hres

/-- C5: starting from the zero state, `0 ≤ passing ≤ total` holds after any
sequence of evaluation calls — unconditionally for an `EventFilter`, and
for an `ObjectFilter` whenever its overridden `filtered` never returns a
collection larger than its input.  (Every prefix of a call sequence is
itself a call sequence, so this covers the state after every call.) -/
theorem passing_le_total_invariant {E₁ E₂ O : Type}
    (f : EventFilter E₁) (events : List E₁)
    (g : ObjectFilter E₂ O) (calls : List (E₂ × List O))
    (hf : f.state.total = 0 ∧ f.state.passing = 0)
    (hgfil : ∀ (ev : E₂) (cl res : List O),
        g.filtered ev cl = .ok res → res.length ≤ cl.length)
    (hg : g.state.total = 0 ∧ g.state.passing = 0) :
    (0 ≤ (f.runAll events).state.passing
      ∧ (f.runAll events).state.passing ≤ (f.runAll events).state.total)
    ∧ (0 ≤ (g.runAll calls).state.passing
      ∧ (g.runAll calls).state.passing ≤ (g.runAll calls).state.total) := by
  refine ⟨⟨Nat.zero_le _, ?_⟩, ⟨Nat.zero_le _, ?_⟩⟩
  · exact EventFilter.runAll_passing_le events f (by omega)
  · exact ObjectFilter.runAll_preserves_le calls g hgfil (by omega)

/-- C5 witness: the even-number stage over three events and the keep-small
object stage over two calls, both from the zero state. -/
theorem passing_le_total_invariant_witness :
    ((wEven.state.total = 0 ∧ wEven.state.passing = 0)
      ∧ (wObjSmall.state.total = 0 ∧ wObjSmall.state.passing = 0))
    ∧ ((0 ≤ (wEven.runAll [0, 1, 2]).state.passing
        ∧ (wEven.runAll [0, 1, 2]).state.passing
            ≤ (wEven.runAll [0, 1, 2]).state.total)
      ∧ (0 ≤ (wObjSmall.runAll [(0, [1, 7]), (1, [])]).state.passing
        ∧ (wObjSmall.runAll [(0, [1, 7]), (1, [])]).state.passing
            ≤ (wObjSmall.runAll [(0, [1, 7]), (1, [])]).state.total)) := by
  refine ⟨⟨⟨rfl, rfl⟩, ⟨rfl, rfl⟩⟩, ?_⟩
  refine passing_le_total_invariant wEven [0, 1, 2] wObjSmall
    [(0, [1, 7]), (1, [])] ⟨rfl, rfl⟩ ?_ ⟨rfl, rfl⟩
  intro ev cl res hres
  simp only [wObjSmall, Except.ok.injEq] at hres
  rw [← hres]
  exact List.length_filter_le _ _

/-- Every `ObjectFilter.__call__` increments `total` by 1 in
`count_events` mode and by the input collection's length otherwise. -/
theorem ObjectFilter.call_total_mode {Event Obj : Type}
    (g : ObjectFilter Event Obj) (e : Event) (c : List Obj) :
    (g.call e c).1.state.total
      = g.state.total + (if g.count_events then 1 else c.length) := by
  unfold ObjectFilter.call
  rcases hres : (if g.passthrough then Except.ok c else g.filtered e c)
      with err | coll
  · simp [hres]
  · by_cases hl : 0 < coll.length <;> simp [hres, hl]

/-- On a successful `ObjectFilter.__call__` returning `out`, `passing`
grows by 1 (`count_events` mode) or by `out.length`, and only when `out`
is non-empty. -/
theorem ObjectFilter.call_ok_passing {Event Obj : Type}
    (g : ObjectFilter Event Obj) (e : Event) (c out : List Obj)
    (h : (g.call e c).2 = .ok out) :
    (g.call e c).1.state.passing
      = g.state.passing
        + (if 0 < out.length then (if g.count_events then 1 else out.length)
           else 0) := by
  unfold ObjectFilter.call at h ⊢
  rcases hres : (if g.passthrough then Except.ok c else g.filtered e c)
      with err | coll
  · rw [hres] at h
    simp at h
  · rw [hres] at h
    by_cases hl : 0 < coll.length <;> simp [hl] at h <;>
      simp [hres, hl, ← h]

/-- With `passthrough` set, `ObjectFilter.__call__` returns the input
collection unchanged, and its observable effect does not depend on the
`filtered` method at all. -/
theorem ObjectFilter.call_passthrough {Event Obj : Type}
    (g : ObjectFilter Event Obj) (e : Event) (c : List Obj)
    (h : g.passthrough = true) :
    (g.call e c).2 = .ok c
    ∧ ∀ fil,
        (({ g with filtered := fil } : ObjectFilter Event Obj).call e c).1.state
            = (g.call e c).1.state
        ∧ (({ g with filtered := fil } : ObjectFilter Event Obj).call e c).2
            = (g.call e c).2 := by
  unfold ObjectFilter.call
  by_cases hl : 0 < c.length <;> simp [h, hl]

/-- C7: `ObjectFilter` evaluation mode contract.  In `count_events=True`
mode `total` advances by exactly 1 per call and `passing` by 1 exactly
when the narrowed collection is non-empty; in the default
`count_events=False` mode `total` advances by the input collection's size
and `passing` by the narrowed collection's size; with `passthrough` set
the input collection is returned unmodified, `filtered` is never
consulted (the call's observable effect is the same for every `filtered`
implementation), and the counters update per the active mode with the
unmodified collection as both input and output. -/
theorem objectFilter_call_modes {E O : Type}
    (g₁ g₂ g₃ : ObjectFilter E O) (e : E)
    (c₁ c₂ c₃ out₁ out₂ : List O)
    (h₁ : g₁.count_events = true) (hok₁ : (g₁.call e c₁).2 = .ok out₁)
    (h₂ : g₂.count_events = false) (hok₂ : (g₂.call e c₂).2 = .ok out₂)
    (h₃ : g₃.passthrough = true) :
    (g₁.call e c₁).1.state.total = g₁.state.total + 1
    ∧ (g₁.call e c₁).1.state.passing
        = g₁.state.passing + (if 0 < out₁.length then 1 else 0)
    ∧ (g₂.call e c₂).1.state.total = g₂.state.total + c₂.length
    ∧ (g₂.call e c₂).1.state.passing = g₂.state.passing + out₂.length
    ∧ (g₃.call e c₃).2 = .ok c₃
    ∧ (g₃.call e c₃).1.state.total
        = g₃.state.total + (if g₃.count_events then 1 else c₃.length)
    ∧ (g₃.call e c₃).1.state.passing
        = g₃.state.passing
          + (if 0 < c₃.length then (if g₃.count_events then 1 else c₃.length)
             else 0)
    ∧ ∀ fil,
        (({ g₃ with filtered := fil } : ObjectFilter E O).call e c₃).1.state
            = (g₃.call e c₃).1.state
        ∧ (({ g₃ with filtered := fil } : ObjectFilter E O).call e c₃).2
            = (g₃.call e c₃).2 := by
  have t1 := ObjectFilter.call_total_mode g₁ e c₁
  have p1 := ObjectFilter.call_ok_passing g₁ e c₁ out₁ hok₁
  have t2 := ObjectFilter.call_total_mode g₂ e c₂
  have p2 := ObjectFilter.call_ok_passing g₂ e c₂ out₂ hok₂
  have pt := ObjectFilter.call_passthrough g₃ e c₃ h₃
  have t3 := ObjectFilter.call_total_mode g₃ e c₃
  have p3 := ObjectFilter.call_ok_passing g₃ e c₃ c₃ pt.1
  refine ⟨?_, ?_, ?_, ?_, pt.1, t3, p3, pt.2⟩
  · simp [t1, h₁]
  · simp [p1, h₁]
  · simp [t2, h₂]
  · simp only [p2, h₂]
    rcases Nat.eq_zero_or_pos out₂.length with hz | hz <;> simp [hz]

/-- C7 witness: `wObjSmallCE` (`count_events=True`, `passthrough=True`) at
collections `[3, 7]` and `[9]`, and `wObjSmall` (`count_events=False`)
narrowing `[3, 7]` to `[3]`. -/
theorem objectFilter_call_modes_witness :
    (wObjSmallCE.count_events = true
      ∧ (wObjSmallCE.call 0 [3, 7]).2 = .ok [3, 7]
      ∧ wObjSmall.count_events = false
      ∧ (wObjSmall.call 0 [3, 7]).2 = .ok [3]
      ∧ wObjSmallCE.passthrough = true)
    ∧ ((wObjSmallCE.call 0 [3, 7]).1.state.total
          = wObjSmallCE.state.total + 1
      ∧ (wObjSmallCE.call 0 [3, 7]).1.state.passing
          = wObjSmallCE.state.passing
            + (if 0 < ([3, 7] : List Nat).length then 1 else 0)
      ∧ (wObjSmall.call 0 [3, 7]).1.state.total
          = wObjSmall.state.total + ([3, 7] : List Nat).length
      ∧ (wObjSmall.call 0 [3, 7]).1.state.passing
          = wObjSmall.state.passing + ([3] : List Nat).length
      ∧ (wObjSmallCE.call 0 [9]).2 = .ok [9]
      ∧ (wObjSmallCE.call 0 [9]).1.state.total
          = wObjSmallCE.state.total
            + (if wObjSmallCE.count_events then 1 else ([9] : List Nat).length)
      ∧ (wObjSmallCE.call 0 [9]).1.state.passing
          = wObjSmallCE.state.passing
            + (if 0 < ([9] : List Nat).length
               then (if wObjSmallCE.count_events then 1
                     else ([9] : List Nat).length)
               else 0)
      ∧ ∀ fil,
          (({ wObjSmallCE with filtered := fil } : ObjectFilter Nat Nat).call
              0 [9]).1.state = (wObjSmallCE.call 0 [9]).1.state
          ∧ (({ wObjSmallCE with filtered := fil } : ObjectFilter Nat Nat).call
              0 [9]).2 = (wObjSmallCE.call 0 [9]).2) :=
  ⟨⟨rfl, rfl, rfl, rfl, rfl⟩,
   objectFilter_call_modes wObjSmallCE wObjSmall wObjSmallCE 0
     [3, 7] [3, 7] [9] [3, 7] [3] rfl rfl rfl rfl rfl⟩

/-- Unfolding `EventFilterList.__call__` at a stage that passes: the loop
continues into the remaining stages. -/
theorem EventFilterList.call_cons_true {Event : Type}
    (f : EventFilter Event) (rest : List (EventFilter Event)) (e : Event)
    (h : f.outcome e = .ok true) :
    EventFilterList.call (f :: rest) e
      = ((f.call e).1 :: (EventFilterList.call rest e).1,
         (EventFilterList.call rest e).2) := by
  simp only [EventFilterList.call, EventFilter.call_snd, h]

/-- Unfolding `EventFilterList.__call__` at a stage that fails: the loop
returns `False` at once, leaving the remaining stages untouched. -/
theorem EventFilterList.call_cons_false {Event : Type}
    (f : EventFilter Event) (rest : List (EventFilter Event)) (e : Event)
    (h : f.outcome e = .ok false) :
    EventFilterList.call (f :: rest) e = ((f.call e).1 :: rest, .ok false) := by
  simp only [EventFilterList.call, EventFilter.call_snd, h]

/-- Unfolding `EventFilterList.__call__` at a stage that raises: the
exception propagates at once, leaving the remaining stages untouched. -/
theorem EventFilterList.call_cons_error {Event : Type}
    (f : EventFilter Event) (rest : List (EventFilter Event)) (e : Event)
    (err : PyErr) (h : f.outcome e = .error err) :
    EventFilterList.call (f :: rest) e
      = ((f.call e).1 :: rest, .error err) := by
  simp only [EventFilterList.call, EventFilter.call_snd, h]

/-- C6: `EventFilterList` evaluation is an in-order short-circuit AND.  If
every stage before position k accepts the event and the stage at position
k rejects it, the overall result is `False` and the stages after position
k are returned exactly as they were — their `total`, `passing` and
`details` counters are untouched by that call; and if every stage accepts
the event the overall result is `True`. -/
theorem eventFilterList_short_circuit {Event : Type} (e : Event)
    (pre : List (EventFilter Event)) (fk : EventFilter Event)
    (post : List (EventFilter Event))
    (hpre : ∀ f ∈ pre, f.outcome e = .ok true)
    (hfk : fk.outcome e = .ok false) :
    (EventFilterList.call (pre ++ fk :: post) e).2 = .ok false
    ∧ (EventFilterList.call (pre ++ fk :: post) e).1.drop (pre.length + 1)
        = post
    ∧ ∀ fs : List (EventFilter Event),
        (∀ f ∈ fs, f.outcome e = .ok true) →
          (EventFilterList.call fs e).2 = .ok true := by
  have main : ∀ pre : List (EventFilter Event),
      (∀ f ∈ pre, f.outcome e = .ok true) →
      (EventFilterList.call (pre ++ fk :: post) e).2 = .ok false
      ∧ (EventFilterList.call (pre ++ fk :: post) e).1.drop (pre.length + 1)
          = post := by
    intro pre
    induction pre with
    | nil =>
        intro _
        rw [List.nil_append, EventFilterList.call_cons_false fk post e hfk]
        exact ⟨rfl, by simp⟩
    | cons f pre ih =>
        intro hall
        rw [List.cons_append,
          EventFilterList.call_cons_true f _ e (hall f (List.mem_cons_self f pre))]
        obtain ⟨h2, h1⟩ := ih (fun g hg => hall g (List.mem_cons_of_mem f hg))
        refine ⟨h2, ?_⟩
        simp only [List.length_cons, List.drop_succ_cons]
        exact h1
  have allpass : ∀ fs : List (EventFilter Event),
      (∀ f ∈ fs, f.outcome e = .ok true) →
        (EventFilterList.call fs e).2 = .ok true := by
    intro fs
    induction fs with
    | nil => intro _; rfl
    | cons f rest ih =>
        intro hall
        rw [EventFilterList.call_cons_true f rest e
          (hall f (List.mem_cons_self f rest))]
        exact ih (fun g hg => hall g (List.mem_cons_of_mem f hg))
  exact ⟨(main pre hpre).1, (main pre hpre).2, allpass⟩

/-- C6 witness: with stages `[wAccept, wReject, wEven]` and event `0`,
stage 1 rejects, the result is `False`, and stage 2 is returned
untouched. -/
theorem eventFilterList_short_circuit_witness :
    ((∀ f ∈ [wAccept], EventFilter.outcome f 0 = .ok true)
      ∧ wReject.outcome 0 = .ok false)
    ∧ ((EventFilterList.call ([wAccept] ++ wReject :: [wEven]) 0).2
          = .ok false
      ∧ (EventFilterList.call ([wAccept] ++ wReject :: [wEven]) 0).1.drop
          (([wAccept] : List (EventFilter Nat)).length + 1) = [wEven]
      ∧ ∀ fs : List (EventFilter Nat),
          (∀ f ∈ fs, f.outcome 0 = .ok true) →
            (EventFilterList.call fs 0).2 = .ok true) := by
  have hpre : ∀ f ∈ [wAccept], EventFilter.outcome f 0 = .ok true := by
    intro f hf
    rw [List.mem_singleton] at hf
    subst hf
    rfl
  exact ⟨⟨hpre, rfl⟩,
    eventFilterList_short_circuit 0 [wAccept] wReject [wEven] hpre rfl⟩

/-- One list call, head/tail form: the head stage is always evaluated; the
tail is evaluated only when the head passes. -/
theorem EventFilterList.call_fst_cons {Event : Type}
    (f : EventFilter Event) (rest : List (EventFilter Event)) (e : Event) :
    (EventFilterList.call (f :: rest) e).1
      = (f.call e).1 ::
        (if (f.call e).2 = Except.ok true
         then (EventFilterList.call rest e).1 else rest) := by
  simp only [EventFilterList.call]
  rcases h : (f.call e).2 with err | b
  · simp [h]
  · cases b <;> simp [h]

/-- `EventFilterList.__call__` preserves the number of stages. -/
theorem EventFilterList.call_length {Event : Type} (e : Event) :
    ∀ fs : List (EventFilter Event),
      (EventFilterList.call fs e).1.length = fs.length := by
  intro fs
  induction fs with
  | nil => rfl
  | cons f rest ih =>
      rw [EventFilterList.call_fst_cons]
      by_cases h : (f.call e).2 = Except.ok true <;> simp [h, ih]

/-- One list call preserves the adjacent-stage chaining property. -/
theorem chainOk_call {Event : Type} (e : Event) :
    ∀ fs : List (EventFilter Event),
      chainOk fs → chainOk (EventFilterList.call fs e).1 := by
  intro fs
  induction fs with
  | nil => intro h; exact h
  | cons f rest ih =>
      intro hch
      rw [EventFilterList.call_fst_cons]
      match rest, hch with
      | [], _ =>
          by_cases h : (f.call e).2 = Except.ok true <;>
            simp [h, EventFilterList.call, chainOk]
      | g :: rs, ⟨hadj, htail⟩ =>
          by_cases h : (f.call e).2 = Except.ok true
          · rw [if_pos h]
            have hrest := EventFilterList.call_fst_cons g rs e
            have := ih htail
            rw [hrest] at this ⊢
            refine ⟨?_, this⟩
            rw [EventFilter.call_total, EventFilter.call_passing_true f e h,
              hadj]
          · rw [if_neg h]
            exact ⟨by rw [EventFilter.call_passing_ne f e h, hadj], htail⟩

/-- Submitting any event sequence preserves the chaining property. -/
theorem chainOk_runEvents {Event : Type} (events : List Event) :
    ∀ fs : List (EventFilter Event),
      chainOk fs → chainOk (EventFilterList.runEvents fs events) := by
  induction events with
  | nil => intro fs h; exact h
  | cons e es ih =>
      intro fs h
      exact ih (EventFilterList.call fs e).1 (chainOk_call e fs h)

/-- All-zero stages satisfy the chaining property. -/
theorem chainOk_of_zero {Event : Type} :
    ∀ fs : List (EventFilter Event),
      (∀ f ∈ fs, f.state.total = 0 ∧ f.state.passing = 0) → chainOk fs := by
  intro fs
  induction fs with
  | nil => intro _; trivial
  | cons f rest ih =>
      intro hz
      match rest, ih with
      | [], _ => trivial
      | g :: rs, ih =>
          refine ⟨?_, ih (fun x hx => hz x (List.mem_cons_of_mem f hx))⟩
          rw [(hz g (by simp)).1, (hz f (by simp)).2]

/-- The chaining property, in indexed form. -/
theorem chainOk_get {Event : Type} :
    ∀ fs : List (EventFilter Event), chainOk fs →
      ∀ i (h : i + 1 < fs.length),
        (fs.get ⟨i + 1, h⟩).state.total
          = (fs.get ⟨i, Nat.lt_of_succ_lt h⟩).state.passing := by
  intro fs
  induction fs with
  | nil => intro _ i h; simp at h
  | cons f rest ih =>
      intro hch i h
      match rest, hch with
      | [], _ => simp at h
      | g :: rs, ⟨hadj, htail⟩ =>
          match i with
          | 0 => exact hadj
          | i + 1 =>
              have h2 : i + 1 < (g :: rs).length := by
                simpa using Nat.lt_of_succ_lt_succ h
              exact ih htail i h2

/-- An empty list stays empty under any event sequence. -/
theorem EventFilterList.runEvents_nil {Event : Type} (events : List Event) :
    EventFilterList.runEvents ([] : List (EventFilter Event)) events = [] := by
  induction events with
  | nil => rfl
  | cons e es ih => exact ih

/-- After a nonempty list absorbs an event sequence, the head stage's
`total` has grown by exactly the number of events. -/
theorem EventFilterList.runEvents_head_total {Event : Type}
    (events : List Event) :
    ∀ (f : EventFilter Event) (rest : List (EventFilter Event)),
      ∃ f₂ rest₂,
        EventFilterList.runEvents (f :: rest) events = f₂ :: rest₂
        ∧ f₂.state.total = f.state.total + events.length := by
  induction events with
  | nil => intro f rest; exact ⟨f, rest, rfl, rfl⟩
  | cons e es ih =>
      intro f rest
      have hstep : EventFilterList.runEvents (f :: rest) (e :: es)
          = EventFilterList.runEvents
              (EventFilterList.call (f :: rest) e).1 es := rfl
      rw [hstep, EventFilterList.call_fst_cons]
      obtain ⟨f₂, rest₂, heq, htot⟩ := ih (f.call e).1
        (if (f.call e).2 = Except.ok true
         then (EventFilterList.call rest e).1 else rest)
      refine ⟨f₂, rest₂, heq, ?_⟩
      rw [htot, EventFilter.call_total]
      simp [Nat.add_assoc, Nat.add_comm 1 es.length]

/-- C4: the defining cut-flow property.  Starting from all-zero counters,
after any event sequence is submitted (each event exactly once) to an
`EventFilterList`, stage 0's `total` equals the number of events
submitted, and every later stage's `total` equals the previous stage's
`passing`. -/
theorem eventFilterList_cutflow_chain {Event : Type}
    (fs : List (EventFilter Event)) (events : List Event)
    (hz : ∀ f ∈ fs, f.state.total = 0 ∧ f.state.passing = 0) :
    (∀ h0 : 0 < (EventFilterList.runEvents fs events).length,
        ((EventFilterList.runEvents fs events).get ⟨0, h0⟩).state.total
          = events.length)
    ∧ ∀ i (h : i + 1 < (EventFilterList.runEvents fs events).length),
        ((EventFilterList.runEvents fs events).get ⟨i + 1, h⟩).state.total
          = ((EventFilterList.runEvents fs events).get
              ⟨i, Nat.lt_of_succ_lt h⟩).state.passing := by
  constructor
  · intro h0
    match fs, hz with
    | [], _ =>
        rw [EventFilterList.runEvents_nil] at h0
        simp at h0
    | f :: rest, hz =>
        obtain ⟨f₂, rest₂, heq, htot⟩ :=
          EventFilterList.runEvents_head_total events f rest
        have h00 : ((EventFilterList.runEvents (f :: rest) events).get
            ⟨0, h0⟩).state.total = f₂.state.total := by
          congr 1
          simp [heq]
        rw [h00, htot, (hz f (by simp)).1]
        simp
  · exact chainOk_get _ (chainOk_runEvents events fs (chainOk_of_zero fs hz))

/-- C4 witness: two zero stages `[wEven, wAccept]` over four events. -/
theorem eventFilterList_cutflow_chain_witness :
    (∀ f ∈ [wEven, wAccept], f.state.total = 0 ∧ f.state.passing = 0)
    ∧ ((∀ h0 : 0 < (EventFilterList.runEvents [wEven, wAccept]
            [0, 1, 2, 3]).length,
        ((EventFilterList.runEvents [wEven, wAccept] [0, 1, 2, 3]).get
            ⟨0, h0⟩).state.total = ([0, 1, 2, 3] : List Nat).length)
      ∧ ∀ i (h : i + 1 < (EventFilterList.runEvents [wEven, wAccept]
            [0, 1, 2, 3]).length),
          ((EventFilterList.runEvents [wEven, wAccept] [0, 1, 2, 3]).get
              ⟨i + 1, h⟩).state.total
            = ((EventFilterList.runEvents [wEven, wAccept] [0, 1, 2, 3]).get
                ⟨i, Nat.lt_of_succ_lt h⟩).state.passing) := by
  have hz : ∀ f ∈ [wEven, wAccept],
      f.state.total = 0 ∧ f.state.passing = 0 := by
    intro f hf
    rcases List.mem_cons.1 hf with h | h
    · subst h; exact ⟨rfl, rfl⟩
    · rw [List.mem_singleton] at h
      subst h; exact ⟨rfl, rfl⟩
  exact ⟨hz, eventFilterList_cutflow_chain [wEven, wAccept] [0, 1, 2, 3] hz⟩

/-- C9: constrained insertion type checks.  Appending a value that is not
an instance of the list's constrained stage kind fails with `TypeError`
and leaves the list unmodified, for both `EventFilterList` and
`ObjectFilterList`; positional insertion of such a value likewise fails
with `TypeError` and leaves the list unmodified. -/
theorem constrained_append_type_check {Event Obj : Type}
    (l₁ l₂ : List (PyObj Event Obj)) (x y : PyObj Event Obj) (i j : Nat)
    (hx : x.isEventFilter = false) (hy : y.isObjectFilter = false) :
    EventFilterList.append l₁ x = (l₁, some .typeError)
    ∧ EventFilterList.setitem l₁ i x = (l₁, some .typeError)
    ∧ ObjectFilterList.append l₂ y = (l₂, some .typeError)
    ∧ ObjectFilterList.setitem l₂ j y = (l₂, some .typeError) := by
  unfold EventFilterList.append ObjectFilterList.append
    EventFilterList.setitem ObjectFilterList.setitem
  simp [hx, hy]

/-- C9 witness: a plain `Filter` instance pushed into an
`EventFilterList`, and an `EventFilter` instance pushed into an
`ObjectFilterList`, both at index 0. -/
theorem constrained_append_type_check_witness :
    ((PyObj.baseFilter (FilterState.init "f")
        : PyObj Nat Nat).isEventFilter = false
      ∧ (PyObj.eventFilter wEven : PyObj Nat Nat).isObjectFilter = false)
    ∧ (EventFilterList.append
          ([PyObj.eventFilter wAccept] : List (PyObj Nat Nat))
          (PyObj.baseFilter (FilterState.init "f"))
        = ([PyObj.eventFilter wAccept], some .typeError)
      ∧ EventFilterList.setitem
          ([PyObj.eventFilter wAccept] : List (PyObj Nat Nat)) 0
          (PyObj.baseFilter (FilterState.init "f"))
        = ([PyObj.eventFilter wAccept], some .typeError)
      ∧ ObjectFilterList.append ([] : List (PyObj Nat Nat))
          (PyObj.eventFilter wEven) = ([], some .typeError)
      ∧ ObjectFilterList.setitem ([] : List (PyObj Nat Nat)) 0
          (PyObj.eventFilter wEven) = ([], some .typeError)) :=
  ⟨⟨rfl, rfl⟩,
   constrained_append_type_check
     ([PyObj.eventFilter wAccept] : List (PyObj Nat Nat)) []
     (PyObj.baseFilter (FilterState.init "f")) (PyObj.eventFilter wEven)
     0 0 rfl rfl⟩
